import Mathlib

/-!
Verification development for a tree-walking Lox interpreter written in Rust.

The Lean definitions below are a shallow embedding of the Rust sources:
`src/lex.rs` (scanner), `src/resolver.rs` (static resolver),
`src/environment.rs` (environment chain), `src/function.rs` (callables) and
`src/interpreter.rs` (evaluator).  Rust's `f64` numbers are modelled by `Rat`
(none of the properties below depends on floating-point rounding), `HashMap`
by association lists, the `Rc<RefCell<Environment>>` chain by an arena of
environments indexed by `Nat` inside an explicit interpreter state, and the
unbounded recursion of the evaluator by a fuel parameter (`Outcome.fuelOut`
marks fuel exhaustion, an artifact of the embedding, distinct from the
program's own error channel).
-/

namespace Lox

/-- Token kinds, from `TokenType` in `src/lex.rs`.  Keyword kinds carry a `k`
prefix because their Rust names are Lean keywords. -/
inductive TokenType where
  | leftParen | rightParen | leftBrace | rightBrace | comma | dot | minus | plus
  | semicolon | slash | star
  | bang | bangEqual | equal | equalEqual | greater | greaterEqual | less | lessEqual
  | identifier | string | number
  | kVar | kAnd | kClass | kElse | kFalse | kFor | kFun | kIf | kNil | kOr
  | kPrint | kReturn | kSuper | kThis | kTrue | kWhile
  | eof
  deriving DecidableEq, Repr

/-- Literal values, from `Literal` in `src/lex.rs`.  `Number(f64)` is modelled
with `Rat`. -/
inductive Literal where
  | str (s : String)
  | number (n : Rat)
  | boolean (b : Bool)
  | nil
  deriving DecidableEq, Repr

/-- `Literal::is_truthy` in `src/lex.rs`: `Nil` and `Boolean(false)` are falsy,
everything else is truthy. -/
def Literal.isTruthy : Literal → Bool
  | .str _ => true
  | .number _ => true
  | .boolean b => b
  | .nil => false

/-- `Literal::is_equal` in `src/lex.rs`: structural equality, cross-kind
comparison is false. -/
def Literal.isEqual : Literal → Literal → Bool
  | .str a, .str b => a == b
  | .number a, .number b => a == b
  | .boolean a, .boolean b => a == b
  | .nil, .nil => true
  | _, _ => false

/-- `impl ToString for Literal` in `src/lex.rs`.  A whole number is printed
with one forced decimal (`format!("\x7b:.1\x7d", n)`), any other number by
Rust's shortest round-trip `f64` display (rendered here over the `Rat`
model); note the `Nil` arm yields the string `"null"`. -/
def Literal.toStr : Literal → String
  | .str s => s
  | .number n => if n.den == 1 then toString n.num ++ ".0" else toString n
  | .boolean b => toString b
  | .nil => "null"

/-- `Token` in `src/lex.rs`: kind, lexeme and optional literal.  The struct
has no line-number field. -/
structure Token where
  tokenType : TokenType
  lexeme : String
  literal : Option Literal
  deriving DecidableEq, Repr

/-! ## Resolver scope stack (`src/resolver.rs`)

A scope is a `HashMap<String, bool>`, modelled as an association list.  The
scope stack is a `Vec` whose last element is the innermost scope. -/

/-- One resolver scope: name to defined-flag, as in `Resolver::scopes`. -/
abbrev Scope := List (String × Bool)

/-- `Resolver::resolve_local` in `src/resolver.rs`: iterate
`scopes.iter().enumerate().rev()` and return the `enumerate` index `i` of the
first scope (scanning from the end of the `Vec`) whose map contains the name;
that `i` is what is passed to `interpreter.resolve`. -/
def resolveLocal (scopes : List Scope) (name : String) : Option Nat :=
  (scopes.enum.reverse.find? (fun p => (p.2.lookup name).isSome)).map (fun p => p.1)

/-! ## Abstract syntax trees (`src/expr.rs`, `src/stmt.rs`)

The Rust `ExprEnum` / `StmtEnum` tagged variants.  The `Block` struct is
represented by its `statements` list; the Rust `If`, `While` and `Return`
variants carry an `s` prefix because their names are Lean keywords. -/

mutual

inductive ExprEnum where
  | binary (left : ExprEnum) (operator : Token) (right : ExprEnum)
  | grouping (expression : ExprEnum)
  | literal (value : Literal)
  | unary (operator : Token) (right : ExprEnum)
  | variable (name : Token)
  | assignment (name : Token) (value : ExprEnum)
  | logical (left : ExprEnum) (operator : Token) (right : ExprEnum)
  | call (callee : ExprEnum) (paren : Token) (arguments : List ExprEnum)

inductive StmtEnum where
  | expression (e : ExprEnum)
  | print (e : ExprEnum)
  | varDecl (name : Token) (initializer : Option ExprEnum)
  | block (statements : List StmtEnum)
  | sIf (condition : ExprEnum) (thenBranch : StmtEnum) (elseBranch : Option StmtEnum)
  | sWhile (condition : ExprEnum) (body : StmtEnum)
  | functionDecl (name : Token) (parameters : List Token) (body : List StmtEnum)
  | sReturn (keyword : Token) (value : Option ExprEnum)

end

/-- `FunctionDecl` in `src/stmt.rs` (the owned clone stored inside a
`Function` callable); `body` is the `Block`'s statement list. -/
structure FunctionDecl where
  name : Token
  parameters : List Token
  body : List StmtEnum

/-- `NativeFunction` in `src/function.rs`.  Its `func` field (a host Rust
function pointer) is modelled by a name-indexed native table supplied to the
evaluator, so the value itself carries only name and arity. -/
structure NativeFunction where
  name : String
  arity : Nat

/-- `Callable` in `src/function.rs`. -/
inductive Callable where
  | function (declaration : FunctionDecl)
  | nativeFunction (f : NativeFunction)

/-- `CallableInterface::arity` in `src/function.rs`: parameter count for user
functions, the stored arity for natives. -/
def Callable.arity : Callable → Nat
  | .function f => f.parameters.length
  | .nativeFunction nf => nf.arity

/-- `impl ToString for Callable` in `src/function.rs`. -/
def Callable.toStr : Callable → String
  | .function f => "<fn " ++ f.name.lexeme ++ ">"
  | .nativeFunction nf => "<native fn " ++ nf.name ++ ">"

/-- `Value` in `src/environment.rs`: a literal, or a callable paired with the
environment captured at declaration time (an arena index here, a
`Rc<RefCell<Environment>>` in Rust). -/
inductive Value where
  | literal (l : Literal)
  | callable (c : Callable) (env : Nat)

/-- `impl ToString for Value` in `src/environment.rs`: literals are printed
through `Literal`'s string form, callables through theirs. -/
def Value.toStr : Value → String
  | .literal l => l.toStr
  | .callable c _ => c.toStr

/-- `Error` in `src/error.rs`.  `returnValue` is the `Return` control signal
carried on the error channel. -/
inductive Err where
  | internalError (msg : String)
  | parseError (token : Token) (msg : String)
  | assignmentError (msg : String)
  | runtimeError (msg : String)
  | returnValue (value : Value)

/-! ## Environment chain (`src/environment.rs`)

An environment's `values` map (`HashMap<String, Value>`) is an association
list; `assocInsert` mirrors `HashMap::insert` (overwrite the existing binding
or add one), `List.lookup` mirrors `HashMap::get`/`contains_key`. -/

/-- `HashMap::insert`: replace the binding for `name` if present, otherwise
add it. -/
def assocInsert {β : Type} : List (String × β) → String → β → List (String × β)
  | [], name, v => [(name, v)]
  | (k, w) :: rest, name, v =>
    if k = name then (name, v) :: rest else (k, w) :: assocInsert rest name v

/-- One environment's own map of bindings. -/
abbrev Frame := List (String × Value)

/-- `Environment::assign` in `src/environment.rs`, over the chain of
environments reachable through `enclosing` links (head = the environment the
call starts on, last = globals whose `enclosing` is `None`): if the current
map binds `name`, overwrite it; otherwise recurse into the enclosing
environment; past the globals, fail with `Undefined variable <name>` (a
`RuntimeError`).  The returned chain is the post-call state of every map. -/
def assignChain : List Frame → String → Value → List Frame × Option Err
  | [], name, _ => ([], some (.runtimeError ("Undefined variable " ++ name)))
  | f :: rest, name, v =>
    if (f.lookup name).isSome then
      (assocInsert f name v :: rest, none)
    else
      let (rest', e) := assignChain rest name v
      (f :: rest', e)

/-! ## Scanner (`src/lex.rs`)

`Tokenizer::parse` walks a code-point vector with `start`/`current` offsets.
Each `while` loop of the Rust code is a fueled recursive function returning
`none` on fuel exhaustion, so that the non-productive loops of the source are
observable in the embedding.  `peekC`/`peekNextC` are `Tokenizer::peek` and
`Tokenizer::peek_next`. -/

/-- `Tokenizer::peek`: the character at `current`, if any. -/
def peekC (src : List Char) (cur : Nat) : Option Char := src[cur]?

/-- `Tokenizer::peek_next`: the character at `current + 1`, if any. -/
def peekNextC (src : List Char) (cur : Nat) : Option Char := src[cur + 1]?

/-- The `//` comment loop: advance until the next newline, leaving the
newline unconsumed. -/
def commentLoop : Nat → List Char → Nat → Option Nat
  | 0, _, _ => none
  | fuel + 1, src, cur =>
    match peekC src cur with
    | some c => if c = '\n' then some cur else commentLoop fuel src (cur + 1)
    | none => some cur

/-- The string-literal loop (`while let Some(c) = self.advance()`): returns
`(current, line, has_terminated)`. -/
def stringLoop : Nat → List Char → Nat → Nat → Option (Nat × Nat × Bool)
  | 0, _, _, _ => none
  | fuel + 1, src, cur, line =>
    match peekC src cur with
    | none => some (cur, line, false)
    | some c =>
      if c = '"' then some (cur + 1, line, true)
      else if c = '\n' then stringLoop fuel src (cur + 1) (line + 1)
      else stringLoop fuel src (cur + 1) line

/-- The number loop of `Tokenizer::parse`: consume digits; on a `.` look one
ahead — if the next character is a digit consume both, if it is not a digit
break, and if there is no next character take no action at all (the `if let`
has no `else` arm), repeating the loop with an unchanged state. -/
def numberLoop : Nat → List Char → Nat → Option Nat
  | 0, _, _ => none
  | fuel + 1, src, cur =>
    match peekC src cur with
    | none => some cur
    | some c =>
      if c.isDigit then numberLoop fuel src (cur + 1)
      else if c = '.' then
        match peekNextC src cur with
        | some d => if d.isDigit then numberLoop fuel src (cur + 2) else some cur
        | none => numberLoop fuel src cur
      else some cur

/-- The identifier loop: consume `[A-Za-z_0-9]*`. -/
def identLoop : Nat → List Char → Nat → Option Nat
  | 0, _, _ => none
  | fuel + 1, src, cur =>
    match peekC src cur with
    | some c =>
      if c.isAlpha || c = '_' || c.isDigit then identLoop fuel src (cur + 1)
      else some cur
    | none => some cur

/-- `Token::from_str` in `src/lex.rs`: the keyword table. -/
def keywordType (s : String) : Option TokenType :=
  if s = "and" then some .kAnd
  else if s = "class" then some .kClass
  else if s = "else" then some .kElse
  else if s = "false" then some .kFalse
  else if s = "for" then some .kFor
  else if s = "fun" then some .kFun
  else if s = "if" then some .kIf
  else if s = "nil" then some .kNil
  else if s = "or" then some .kOr
  else if s = "print" then some .kPrint
  else if s = "return" then some .kReturn
  else if s = "super" then some .kSuper
  else if s = "this" then some .kThis
  else if s = "true" then some .kTrue
  else if s = "var" then some .kVar
  else if s = "while" then some .kWhile
  else none

/-- Decimal value of a digit run. -/
def digitsVal (cs : List Char) : Nat :=
  cs.foldl (fun a c => a * 10 + (c.toNat - '0'.toNat)) 0

/-- `str::parse::<f64>` on a scanned number lexeme (digits optionally
followed by `.` and digits), over the `Rat` number model. -/
def parseNumber (cs : List Char) : Rat :=
  let whole := cs.takeWhile (fun c => c.isDigit)
  let rest := cs.dropWhile (fun c => c.isDigit)
  match rest with
  | [] => (digitsVal whole : Rat)
  | _ :: frac => (digitsVal whole : Rat) + (digitsVal frac : Rat) / ((10 : Rat) ^ frac.length)

/-- The substring `source[start..stop]` as a `String`. -/
def sliceStr (src : List Char) (start stop : Nat) : String :=
  String.mk ((src.drop start).take (stop - start))

/-- The main loop of `Tokenizer::parse` in `src/lex.rs`.  `cur` is both
`start` (reset at the top of each iteration) and the position of the
character about to be consumed; `code` is the accumulated exit code (`65`
after any lexical error, errors do not abort the scan).  Returns `none` when
the fuel runs out. -/
def tokenizeLoop : Nat → List Char → Nat → Nat → List Token → Nat → Option (List Token × Nat)
  | 0, _, _, _, _, _ => none
  | fuel + 1, src, cur, line, toks, code =>
    match peekC src cur with
    | none => some (toks ++ [⟨.eof, "", none⟩], code)
    | some c =>
      if c = '\n' then tokenizeLoop fuel src (cur + 1) (line + 1) toks code
      else if c.isWhitespace then tokenizeLoop fuel src (cur + 1) line toks code
      else if c = '(' then tokenizeLoop fuel src (cur + 1) line (toks ++ [⟨.leftParen, "(", none⟩]) code
      else if c = ')' then tokenizeLoop fuel src (cur + 1) line (toks ++ [⟨.rightParen, ")", none⟩]) code
      else if c = '\x7b' then tokenizeLoop fuel src (cur + 1) line (toks ++ [⟨.leftBrace, "\x7b", none⟩]) code
      else if c = '\x7d' then tokenizeLoop fuel src (cur + 1) line (toks ++ [⟨.rightBrace, "\x7d", none⟩]) code
      else if c = '*' then tokenizeLoop fuel src (cur + 1) line (toks ++ [⟨.star, "*", none⟩]) code
      else if c = '.' then tokenizeLoop fuel src (cur + 1) line (toks ++ [⟨.dot, ".", none⟩]) code
      else if c = ',' then tokenizeLoop fuel src (cur + 1) line (toks ++ [⟨.comma, ",", none⟩]) code
      else if c = '+' then tokenizeLoop fuel src (cur + 1) line (toks ++ [⟨.plus, "+", none⟩]) code
      else if c = '-' then tokenizeLoop fuel src (cur + 1) line (toks ++ [⟨.minus, "-", none⟩]) code
      else if c = ';' then tokenizeLoop fuel src (cur + 1) line (toks ++ [⟨.semicolon, ";", none⟩]) code
      else if c = '=' then
        match peekC src (cur + 1) with
        | some '=' => tokenizeLoop fuel src (cur + 2) line (toks ++ [⟨.equalEqual, "==", none⟩]) code
        | _ => tokenizeLoop fuel src (cur + 1) line (toks ++ [⟨.equal, "=", none⟩]) code
      else if c = '!' then
        match peekC src (cur + 1) with
        | some '=' => tokenizeLoop fuel src (cur + 2) line (toks ++ [⟨.bangEqual, "!=", none⟩]) code
        | _ => tokenizeLoop fuel src (cur + 1) line (toks ++ [⟨.bang, "!", none⟩]) code
      else if c = '<' then
        match peekC src (cur + 1) with
        | some '=' => tokenizeLoop fuel src (cur + 2) line (toks ++ [⟨.lessEqual, "<=", none⟩]) code
        | _ => tokenizeLoop fuel src (cur + 1) line (toks ++ [⟨.less, "<", none⟩]) code
      else if c = '>' then
        match peekC src (cur + 1) with
        | some '=' => tokenizeLoop fuel src (cur + 2) line (toks ++ [⟨.greaterEqual, ">=", none⟩]) code
        | _ => tokenizeLoop fuel src (cur + 1) line (toks ++ [⟨.greater, ">", none⟩]) code
      else if c = '/' then
        match peekC src (cur + 1) with
        | some '/' =>
          match commentLoop fuel src (cur + 2) with
          | some cur' => tokenizeLoop fuel src cur' line toks code
          | none => none
        | _ => tokenizeLoop fuel src (cur + 1) line (toks ++ [⟨.slash, "/", none⟩]) code
      else if c = '"' then
        match stringLoop fuel src (cur + 1) line with
        | some (cur', line', terminated) =>
          if terminated then
            let body := sliceStr src (cur + 1) (cur' - 1)
            tokenizeLoop fuel src cur' line'
              (toks ++ [⟨.string, "\"" ++ body ++ "\"", some (.str body)⟩]) code
          else tokenizeLoop fuel src cur' line' toks 65
        | none => none
      else if c.isDigit then
        match numberLoop fuel src (cur + 1) with
        | some cur' =>
          let lexeme := sliceStr src cur cur'
          tokenizeLoop fuel src cur' line
            (toks ++ [⟨.number, lexeme, some (.number (parseNumber lexeme.toList))⟩]) code
        | none => none
      else if c.isAlpha || c = '_' then
        match identLoop fuel src (cur + 1) with
        | some cur' =>
          let lexeme := sliceStr src cur cur'
          match keywordType lexeme with
          | some kw => tokenizeLoop fuel src cur' line (toks ++ [⟨kw, lexeme, none⟩]) code
          | none => tokenizeLoop fuel src cur' line (toks ++ [⟨.identifier, lexeme, none⟩]) code
        | none => none
      else tokenizeLoop fuel src (cur + 1) line toks 65

/-- `Tokenizer::parse`: scan a whole source string.  `some (tokens, code)`
when the scan finishes (the token list ends in `Eof`); `none` when the fuel
is exhausted — in particular on the inputs where the Rust loop never
terminates. -/
def tokenize (fuel : Nat) (source : String) : Option (List Token × Nat) :=
  tokenizeLoop fuel source.toList 0 1 [] 0

/-! ## Interpreter state (`src/interpreter.rs`, `src/environment.rs`)

`Rc<RefCell<Environment>>` sharing is modelled by an arena: the state holds
every environment ever created, and environment references are arena
indices.  `globals` and `environment` are the interpreter's two fields;
`output` collects what `println!` writes in `visit_print`. -/

/-- `Environment` in `src/environment.rs`: the per-scope map plus the
optional enclosing reference (an arena index). -/
structure Environment where
  enclosing : Option Nat
  values : Frame

/-- The interpreter plus the shared heap of environments.  `Interpreter::new`
creates the globals environment and points both fields at it. -/
structure State where
  heap : List Environment
  globals : Nat
  environment : Nat
  output : List String

/-- The state built by `Interpreter::new`: one empty globals environment at
index 0. -/
def initState : State :=
  { heap := [{ enclosing := none, values := [] }]
    globals := 0
    environment := 0
    output := [] }

/-- `Environment::define` on the environment at arena index `id`: insert or
overwrite in that environment's own map. -/
def envDefine (st : State) (id : Nat) (name : String) (v : Value) : State :=
  match st.heap[id]? with
  | some env => { st with heap := st.heap.set id { env with values := assocInsert env.values name v } }
  | none => st

/-- `Environment::get`: look up in the current map, else recurse into the
enclosing environment; `none` if not found anywhere.  The fuel bounds the
chain length (enclosing indices created by the interpreter always decrease,
so `heap.length` links suffice). -/
def envGetAux : Nat → List Environment → Nat → String → Option Value
  | 0, _, _, _ => none
  | fuel + 1, heap, id, name =>
    match heap[id]? with
    | none => none
    | some env =>
      match env.values.lookup name with
      | some v => some v
      | none =>
        match env.enclosing with
        | some parent => envGetAux fuel heap parent name
        | none => none

/-- `Environment::get` starting from the environment at index `id`. -/
def envGet (st : State) (id : Nat) (name : String) : Option Value :=
  envGetAux (st.heap.length + 1) st.heap id name

/-- `Environment::assign` over the arena: overwrite the innermost binding of
`name` along the enclosing chain, or fail with `Undefined variable <name>`
without touching any map.  On error the returned message is the
`RuntimeError`'s display form (which `visit_assignment` wraps into a
`ParseError`). -/
def envAssignAux : Nat → State → Nat → String → Value → State × Option String
  | 0, st, _, name, _ => (st, some ("Undefined variable " ++ name))
  | fuel + 1, st, id, name, v =>
    match st.heap[id]? with
    | none => (st, some ("Undefined variable " ++ name))
    | some env =>
      if (env.values.lookup name).isSome then
        (envDefine st id name v, none)
      else
        match env.enclosing with
        | some parent => envAssignAux fuel st parent name v
        | none => (st, some ("Undefined variable " ++ name))

/-- `Environment::assign` starting from the environment at index `id`. -/
def envAssign (st : State) (id : Nat) (name : String) (v : Value) : State × Option String :=
  envAssignAux (st.heap.length + 1) st id name v

/-- `Environment::new(Some(closure_env))` followed by one `define` per
`(parameter, argument)` pair, as in `Function::call`. -/
def bindParams (parameters : List Token) (args : List Value) : Frame :=
  (parameters.zip args).foldl (fun vs p => assocInsert vs p.1.lexeme p.2) []

/-- The host's native-function table, standing in for the `func` field of
`NativeFunction` (a Rust `fn(Vec<Value>) -> Result<Value, Error>`). -/
abbrev NativeTable := String → List Value → Except Err Value

/-- Result of a fueled evaluation step: the program's own `Ok`/`Err`
channel, plus `fuelOut` marking exhaustion of the embedding's fuel. -/
inductive Outcome (α : Type) where
  | ok (a : α)
  | err (e : Err)
  | fuelOut

/-! ## Evaluator (`src/interpreter.rs`, `src/function.rs`)

One Lean function per Rust visitor method group.  Every function consumes
one unit of fuel on entry and hands `fuel` to its callees, so the fuel
bounds the call depth; all other control flow is exactly the Rust code's. -/

mutual

/-- Expression evaluation: `impl ExprVisitor for Interpreter` in
`src/interpreter.rs`.  Note `visit_binary` evaluates the right operand
before the left, and its `And`/`Or` arms re-evaluate `expr.right`; the
`logical` arm is `visit_logical` (dead code behind the current parser, which
emits `Binary` nodes for `and`/`or`). -/
def evalExpr (N : NativeTable) : Nat → State → ExprEnum → State × Outcome Value
  | 0, st, _ => (st, .fuelOut)
  | fuel + 1, st, e =>
    match e with
    | .literal v => (st, .ok (.literal v))
    | .grouping inner => evalExpr N fuel st inner
    | .unary op right =>
      match evalExpr N fuel st right with
      | (st1, .ok rv) =>
        match op.tokenType with
        | .minus =>
          match rv with
          | .literal (.number d) => (st1, .ok (.literal (.number (-d))))
          | _ => (st1, .err (.parseError op "Operand must be a number."))
        | .bang =>
          match rv with
          | .literal l => (st1, .ok (.literal (.boolean (!l.isTruthy))))
          | _ => (st1, .err (.parseError op "Operand must be a boolean."))
        | _ => (st1, .err (.parseError op "Unknown unary operator."))
      | other => other
    | .variable name =>
      match envGet st st.environment name.lexeme with
      | some v => (st, .ok v)
      | none => (st, .err (.parseError name ("Undefined variable '" ++ name.lexeme ++ "'")))
    | .assignment name value =>
      match evalExpr N fuel st value with
      | (st1, .ok v) =>
        match envAssign st1 st1.environment name.lexeme v with
        | (st2, none) => (st2, .ok v)
        | (st2, some msg) => (st2, .err (.parseError name msg))
      | other => other
    | .binary left op right =>
      match evalExpr N fuel st right with
      | (st1, .ok rightV) =>
        match evalExpr N fuel st1 left with
        | (st2, .ok leftV) =>
          match op.tokenType with
          | .plus =>
            match leftV, rightV with
            | .literal (.number a), .literal (.number b) => (st2, .ok (.literal (.number (a + b))))
            | .literal (.str a), .literal (.str b) => (st2, .ok (.literal (.str (a ++ b))))
            | _, _ => (st2, .err (.parseError op "Operand must be two numbers or two strings."))
          | .minus =>
            match leftV, rightV with
            | .literal (.number a), .literal (.number b) => (st2, .ok (.literal (.number (a - b))))
            | _, _ => (st2, .err (.parseError op "Operand must be a numbers."))
          | .slash =>
            match leftV, rightV with
            | .literal (.number a), .literal (.number b) => (st2, .ok (.literal (.number (a / b))))
            | _, _ => (st2, .err (.parseError op "Operand must be a number."))
          | .star =>
            match leftV, rightV with
            | .literal (.number a), .literal (.number b) => (st2, .ok (.literal (.number (a * b))))
            | _, _ => (st2, .err (.parseError op "Operand must be a number."))
          | .greater =>
            match leftV, rightV with
            | .literal (.number a), .literal (.number b) => (st2, .ok (.literal (.boolean (b < a))))
            | _, _ => (st2, .err (.parseError op "Operand must be numbers."))
          | .greaterEqual =>
            match leftV, rightV with
            | .literal (.number a), .literal (.number b) => (st2, .ok (.literal (.boolean (b ≤ a))))
            | _, _ => (st2, .err (.parseError op "Operand must be numbers."))
          | .less =>
            match leftV, rightV with
            | .literal (.number a), .literal (.number b) => (st2, .ok (.literal (.boolean (a < b))))
            | _, _ => (st2, .err (.parseError op "Operand must be numbers."))
          | .lessEqual =>
            match leftV, rightV with
            | .literal (.number a), .literal (.number b) => (st2, .ok (.literal (.boolean (a ≤ b))))
            | _, _ => (st2, .err (.parseError op "Operand must be numbers."))
          | .equalEqual =>
            match leftV, rightV with
            | .literal a, .literal b => (st2, .ok (.literal (.boolean (a.isEqual b))))
            | _, _ => (st2, .err (.parseError op "Operand must be two values."))
          | .bangEqual =>
            match leftV, rightV with
            | .literal a, .literal b => (st2, .ok (.literal (.boolean (!a.isEqual b))))
            | _, _ => (st2, .err (.parseError op "Operand must be two values."))
          | .kAnd =>
            match leftV with
            | .literal l =>
              if !l.isTruthy then (st2, .ok (.literal (.boolean false)))
              else evalExpr N fuel st2 right
            | _ => (st2, .err (.parseError op "Operand must be a boolean."))
          | .kOr =>
            match leftV with
            | .literal l =>
              if l.isTruthy then (st2, .ok leftV)
              else evalExpr N fuel st2 right
            | _ => (st2, .err (.parseError op "Operand must be a boolean."))
          | _ => (st2, .err (.parseError op "Unknown operator."))
        | other => other
      | other => other
    | .logical left op right =>
      match evalExpr N fuel st left with
      | (st1, .ok leftV) =>
        match op.tokenType with
        | .kOr =>
          match leftV with
          | .literal l =>
            if l.isTruthy then (st1, .ok (.literal (.boolean true)))
            else evalExpr N fuel st1 right
          | _ => (st1, .err (.parseError op "Operand must be a boolean."))
        | .kAnd =>
          match leftV with
          | .literal l =>
            if !l.isTruthy then (st1, .ok (.literal (.boolean false)))
            else evalExpr N fuel st1 right
          | _ => (st1, .err (.parseError op "Operand must be a boolean."))
        | _ => (st1, .err (.parseError op "Unknown logical operator."))
      | other => other
    | .call callee paren arguments =>
      match evalExpr N fuel st callee with
      | (st1, .ok calleeV) =>
        match calleeV with
        | .callable func env =>
          if func.arity ≠ arguments.length then
            (st1, .err (.parseError paren
              ("Expected " ++ toString func.arity ++ " arguments but got "
                ++ toString arguments.length ++ ".")))
          else
            match evalArgs N fuel st1 arguments with
            | (st2, .ok args) => callCallable N fuel st2 func env args
            | (st2, .err er) => (st2, .err er)
            | (st2, .fuelOut) => (st2, .fuelOut)
        | _ => (st1, .err (.parseError paren "Can only call functions and classes."))
      | other => other

/-- Argument evaluation in `visit_call`: evaluate the argument expressions
left to right, stopping at the first error. -/
def evalArgs (N : NativeTable) : Nat → State → List ExprEnum → State × Outcome (List Value)
  | 0, st, _ => (st, .fuelOut)
  | _fuel + 1, st, [] => (st, .ok [])
  | fuel + 1, st, a :: rest =>
    match evalExpr N fuel st a with
    | (st1, .ok v) =>
      match evalArgs N fuel st1 rest with
      | (st2, .ok vs) => (st2, .ok (v :: vs))
      | (st2, .err er) => (st2, .err er)
      | (st2, .fuelOut) => (st2, .fuelOut)
    | (st1, .err er) => (st1, .err er)
    | (st1, .fuelOut) => (st1, .fuelOut)

/-- `Callable::call` in `src/function.rs`: dispatch to the user function or
to the native body (looked up in the host table by name). -/
def callCallable (N : NativeTable) : Nat → State → Callable → Nat → List Value → State × Outcome Value
  | 0, st, _, _, _ => (st, .fuelOut)
  | fuel + 1, st, c, env, args =>
    match c with
    | .function f => callFunction N fuel st f env args
    | .nativeFunction nf =>
      match N nf.name args with
      | .ok v => (st, .ok v)
      | .error er => (st, .err er)

/-- `Function::call` in `src/function.rs`: a fresh environment enclosing the
captured closure environment, parameters bound to arguments, the body run
through `execute_block`; completion yields `Nil`, a `ReturnValue` signal is
caught here and yields its value, other errors propagate. -/
def callFunction (N : NativeTable) : Nat → State → FunctionDecl → Nat → List Value → State × Outcome Value
  | 0, st, _, _, _ => (st, .fuelOut)
  | fuel + 1, st, decl, closureEnv, args =>
    match executeBlock N fuel st decl.body { enclosing := some closureEnv, values := bindParams decl.parameters args } with
    | (st1, .ok _) => (st1, .ok (.literal .nil))
    | (st1, .err (.returnValue v)) => (st1, .ok v)
    | (st1, .err er) => (st1, .err er)
    | (st1, .fuelOut) => (st1, .fuelOut)

/-- `Interpreter::execute_block` in `src/interpreter.rs`: save the current
environment reference, switch to `newEnv` (appended to the arena), run the
statements, and restore the saved reference whatever the result was. -/
def executeBlock (N : NativeTable) : Nat → State → List StmtEnum → Environment → State × Outcome Unit
  | 0, st, _, _ => (st, .fuelOut)
  | fuel + 1, st, stmts, newEnv =>
    let oldEnv := st.environment
    let st1 : State := { st with heap := st.heap ++ [newEnv], environment := st.heap.length }
    let r := execStmts N fuel st1 stmts
    ({ r.1 with environment := oldEnv }, r.2)

/-- Statement-list execution (`try_for_each` in `execute_block`, and the
loop in `Interpreter::interpret`): run each statement in order, stopping at
the first error. -/
def execStmts (N : NativeTable) : Nat → State → List StmtEnum → State × Outcome Unit
  | 0, st, _ => (st, .fuelOut)
  | _fuel + 1, st, [] => (st, .ok ())
  | fuel + 1, st, s :: rest =>
    match execStmt N fuel st s with
    | (st1, .ok _) => execStmts N fuel st1 rest
    | (st1, .err er) => (st1, .err er)
    | (st1, .fuelOut) => (st1, .fuelOut)

/-- Statement execution: `impl StmtVisitor for Interpreter` in
`src/interpreter.rs`. -/
def execStmt (N : NativeTable) : Nat → State → StmtEnum → State × Outcome Unit
  | 0, st, _ => (st, .fuelOut)
  | fuel + 1, st, s =>
    match s with
    | .expression e =>
      match evalExpr N fuel st e with
      | (st1, .ok _) => (st1, .ok ())
      | (st1, .err er) => (st1, .err er)
      | (st1, .fuelOut) => (st1, .fuelOut)
    | .print e =>
      match evalExpr N fuel st e with
      | (st1, .ok v) => ({ st1 with output := st1.output ++ [v.toStr] }, .ok ())
      | (st1, .err er) => (st1, .err er)
      | (st1, .fuelOut) => (st1, .fuelOut)
    | .varDecl name initializer =>
      match initializer with
      | some e =>
        match evalExpr N fuel st e with
        | (st1, .ok v) => (envDefine st1 st1.environment name.lexeme v, .ok ())
        | (st1, .err er) => (st1, .err er)
        | (st1, .fuelOut) => (st1, .fuelOut)
      | none => (envDefine st st.environment name.lexeme (.literal .nil), .ok ())
    | .block stmts =>
      executeBlock N fuel st stmts { enclosing := some st.environment, values := [] }
    | .sIf condition thenBranch elseBranch =>
      match evalExpr N fuel st condition with
      | (st1, .ok (.literal l)) =>
        if l.isTruthy then execStmt N fuel st1 thenBranch
        else
          match elseBranch with
          | some eb => execStmt N fuel st1 eb
          | none => (st1, .ok ())
      | (st1, .ok _) => (st1, .err (.internalError "Condition must be a literal value."))
      | (st1, .err er) => (st1, .err er)
      | (st1, .fuelOut) => (st1, .fuelOut)
    | .sWhile condition body =>
      match evalExpr N fuel st condition with
      | (st1, .ok (.literal l)) =>
        if l.isTruthy then
          match execStmt N fuel st1 body with
          | (st2, .ok _) => execStmt N fuel st2 (.sWhile condition body)
          | (st2, .err er) => (st2, .err er)
          | (st2, .fuelOut) => (st2, .fuelOut)
        else (st1, .ok ())
      | (st1, .ok _) => (st1, .err (.runtimeError "Value is not a literal"))
      | (st1, .err er) => (st1, .err er)
      | (st1, .fuelOut) => (st1, .fuelOut)
    | .functionDecl name parameters body =>
      (envDefine st st.environment name.lexeme
        (.callable (.function { name := name, parameters := parameters, body := body }) st.environment), .ok ())
    | .sReturn _ value =>
      match value with
      | some e =>
        match evalExpr N fuel st e with
        | (st1, .ok v) => (st1, .err (.returnValue v))
        | (st1, .err er) => (st1, .err er)
        | (st1, .fuelOut) => (st1, .fuelOut)
      | none => (st, .err (.returnValue (.literal .nil)))

end

/-- `Interpreter::interpret`: execute the statement list in order on the
current environment (initially the globals). -/
def interpret (N : NativeTable) (fuel : Nat) (st : State) (statements : List StmtEnum) :
    State × Outcome Unit :=
  execStmts N fuel st statements

/-- A host native table with no registered functions (the library tests run
the interpreter without registering any; `main` only registers `clock`,
whose value is the wall clock and plays no part in the claims). -/
def emptyNatives : NativeTable := fun _ _ => .error (.runtimeError "Undefined native function")

/-! ## Concrete fixtures used by the theorems below -/

/-- An identifier token (the scanner attaches no literal to identifiers). -/
def ident (s : String) : Token := ⟨.identifier, s, none⟩

/-- An `and` keyword token, as the scanner produces it. -/
def andTok : Token := ⟨.kAnd, "and", none⟩

/-- An `or` keyword token, as the scanner produces it. -/
def orTok : Token := ⟨.kOr, "or", none⟩

/-- The right-parenthesis token a `Call` node stores for error reporting. -/
def parenTok : Token := ⟨.rightParen, ")", none⟩

/-- A `return` keyword token. -/
def returnTok : Token := ⟨.kReturn, "return", none⟩

/-- The closure-binding scenario. Lox source:
`var a = "global"; \x7b fun show() \x7b print a; \x7d show(); var a = "block"; show(); \x7d`. -/
def closureScenario : List StmtEnum :=
  [ .varDecl (ident "a") (some (.literal (.str "global"))),
    .block
      [ .functionDecl (ident "show") [] [.print (.variable (ident "a"))],
        .expression (.call (.variable (ident "show")) parenTok []),
        .varDecl (ident "a") (some (.literal (.str "block"))),
        .expression (.call (.variable (ident "show")) parenTok []) ] ]

/-- A two-parameter user function declaration `fun f(a, b) \x7b \x7d`. -/
def twoParamDecl : FunctionDecl :=
  { name := ident "f", parameters := [ident "a", ident "b"], body := [] }

/-- A state whose globals bind `f` to the two-parameter function above (what
executing `fun f(a,b)\x7b\x7d` at top level produces). -/
def twoParamState : State :=
  { heap := [{ enclosing := none, values := [("f", .callable (.function twoParamDecl) 0)] }]
    globals := 0
    environment := 0
    output := [] }

/-- The number-scan loop of the scanner makes no progress once it looks at a
`.` that has no following character: the state repeats unchanged for every
amount of fuel (source `"1."`, loop entered after the digit at offset 1). -/
theorem numberLoop_stuck : ∀ fuel : Nat, numberLoop fuel "1.".toList 1 = none := by
  intro fuel
  induction fuel with
  | zero => rfl
  | succ g ih =>
    have step : numberLoop (g + 1) "1.".toList 1 = numberLoop g "1.".toList 1 := rfl
    rw [step, ih]

/-- C1.  The evaluator does not use resolved distances: `visit_variable`
looks every reference up dynamically with `Environment::get` on the current
environment chain (the `Interpreter` has no resolution map, and the
`interpreter.resolve` call in `resolver.rs` has no receiving method), so on
the spec's closure-binding scenario the second `show()` call reads the later
shadowing `var a = "block"` and the program prints `global` then `block`,
not `global` twice as the claim requires. -/
theorem c1_variable_lookup_is_dynamic :
    (interpret emptyNatives 40 initState closureScenario).1.output = ["global", "block"] ∧
    (["global", "block"] : List String) ≠ ["global", "global"] :=
  ⟨rfl, by decide⟩

/-- C2.  `resolve_local` iterates `scopes.iter().enumerate().rev()`, so the
index it reports is the innermost matching scope's absolute position from
the **bottom** of the stack, not its distance from the top: with two open
scopes and the name bound in the innermost one it reports `1`, not the `0`
the claim states, and with three such scopes it reports `2`. -/
theorem c2_resolve_local_reports_bottom_index :
    resolveLocal [[("y", true)], [("x", true)]] "x" = some 1 ∧
    resolveLocal [[("y", true)], [("x", true)]] "x" ≠ some 0 ∧
    resolveLocal [[("x", true)], [("x", true)], [("x", true)]] "x" = some 2 :=
  ⟨rfl, by decide, rfl⟩

/-- C9.  Printing the value `nil` writes the string `null`, not `nil`: the
runtime print path goes through `Literal`'s `ToString`, whose `Nil` arm is
`"null"` (the form the `tokenize` output uses for an absent literal). -/
theorem c9_nil_prints_null :
    (interpret emptyNatives 10 initState [.print (.literal .nil)]).1.output = ["null"] ∧
    "null" ≠ "nil" :=
  ⟨rfl, by decide⟩

/-- C4, counterexample.  A `return` statement outside any function body
surfaces the `ReturnValue` signal from `interpret` to its caller: on the
program `return 1;` the interpreter's result is the `ReturnValue` error
itself, which the claim says can never happen. -/
theorem c4_counterexample_top_level_return :
    (interpret emptyNatives 10 initState [.sReturn returnTok (some (.literal (.number 1)))]).2
      = Outcome.err (.returnValue (.literal (.number 1))) :=
  rfl

/-- C4, amended.  The `ReturnValue` signal is caught at the user-function
call boundary: whatever `Function::call` executes, its result is never a
`ReturnValue` error (a body that completes yields `Nil`, a caught
`ReturnValue(v)` yields `v`, and only other errors propagate). -/
theorem c4_call_never_leaks_return_value :
    ∀ (N : NativeTable) (fuel : Nat) (st : State) (decl : FunctionDecl)
      (closureEnv : Nat) (args : List Value) (v : Value),
      (callFunction N fuel st decl closureEnv args).2 ≠ Outcome.err (.returnValue v) := by
  intro N fuel st decl closureEnv args v
  cases fuel with
  | zero => intro h; exact Outcome.noConfusion h
  | succ f =>
    simp only [callFunction]
    rcases hb : executeBlock N f st decl.body
        { enclosing := some closureEnv, values := bindParams decl.parameters args } with ⟨st1, r⟩
    rcases r with a | er | _
    · intro h; exact Outcome.noConfusion h
    · rcases er with m | ⟨tk, m⟩ | m | m | w
      · intro h; injection h with h2; exact Err.noConfusion h2
      · intro h; injection h with h2; exact Err.noConfusion h2
      · intro h; injection h with h2; exact Err.noConfusion h2
      · intro h; injection h with h2; exact Err.noConfusion h2
      · intro h; exact Outcome.noConfusion h
    · intro h; exact Outcome.noConfusion h

/-- C5.  `Tokenizer::parse` does not terminate on every input: on the source
`"1."` (digits followed by a bare `.` at the end of the input) the number
loop takes no action when `peek_next` is `None`, so the scan never finishes
and no Eof-terminated token list is produced, for any amount of fuel. -/
theorem c5_tokenizer_diverges_on_trailing_dot :
    ∀ fuel : Nat, tokenize fuel "1." = none := by
  intro fuel
  cases fuel with
  | zero => rfl
  | succ f =>
    have step : tokenize (f + 1) "1." =
        match numberLoop f "1.".toList 1 with
        | some cur' =>
          tokenizeLoop f "1.".toList cur' 1
            ([] ++ [⟨.number, sliceStr "1.".toList 0 cur',
              some (.number (parseNumber (sliceStr "1.".toList 0 cur').toList))⟩]) 0
        | none => none := rfl
    rw [step, numberLoop_stuck f]

/-- C6.  Tokens carry no source line number: the `Token` struct has only a
kind, a lexeme and an optional literal (while `error.rs` reads a
`line_number` field that does not exist), so the scanner's output on a
two-line source is exactly its output on the same source written on one
line — no error message can recover a token-carried line. -/
theorem c6_tokens_carry_no_line_number :
    tokenize 50 "x\ny"
        = some ([⟨.identifier, "x", none⟩, ⟨.identifier, "y", none⟩, ⟨.eof, "", none⟩], 0) ∧
    tokenize 50 "x\ny" = tokenize 50 "x y" :=
  ⟨rfl, rfl⟩

/-- C8.  `execute_block` saves the current environment reference, installs
the fresh one, and restores the saved reference around the statement run, so
the interpreter's current-environment reference after the block equals its
value before it on every exit path — normal completion, a `ReturnValue`
signal, a runtime error, and the embedding's fuel exhaustion alike. -/
theorem c8_execute_block_restores_environment :
    ∀ (N : NativeTable) (fuel : Nat) (st : State) (stmts : List StmtEnum) (newEnv : Environment),
      ((executeBlock N fuel st stmts newEnv).1).environment = st.environment := by
  intro N fuel st stmts newEnv
  cases fuel with
  | zero => rfl
  | succ f => rfl

/-- C3, counterexample.  `and` with a falsy left operand does not return the
left operand unchanged: `nil and 2` evaluates to `Boolean(false)` (a coerced
boolean), not to `nil`. -/
theorem c3_counterexample_and_coerces_falsy_left :
    evalExpr emptyNatives 10 initState (.binary (.literal .nil) andTok (.literal (.number 2)))
        = (initState, .ok (.literal (.boolean false))) ∧
    Literal.boolean false ≠ Literal.nil :=
  ⟨rfl, by decide⟩

/-- C3, amended.  For an `and`/`or` expression (a `Binary` node, which is
what the parser emits) the evaluator first evaluates the **right** operand,
then the left; `or` with a truthy left returns the left value unchanged,
`and` with a falsy left returns the coerced `Boolean(false)`, and otherwise
the right operand is evaluated a second time and its value returned — so
`nil or "hi"` still yields `"hi"` and `1 and 2` still yields `2`. -/
theorem c3_and_or_semantics :
    ∀ (N : NativeTable) (fuel : Nat) (st st1 st2 : State) (l r : ExprEnum) (op : Token)
      (vr : Value) (lv : Literal),
      evalExpr N fuel st r = (st1, .ok vr) →
      evalExpr N fuel st1 l = (st2, .ok (.literal lv)) →
      ((op.tokenType = .kAnd → lv.isTruthy = false →
          evalExpr N (fuel + 1) st (.binary l op r) = (st2, .ok (.literal (.boolean false)))) ∧
       (op.tokenType = .kAnd → lv.isTruthy = true →
          evalExpr N (fuel + 1) st (.binary l op r) = evalExpr N fuel st2 r) ∧
       (op.tokenType = .kOr → lv.isTruthy = true →
          evalExpr N (fuel + 1) st (.binary l op r) = (st2, .ok (.literal lv))) ∧
       (op.tokenType = .kOr → lv.isTruthy = false →
          evalExpr N (fuel + 1) st (.binary l op r) = evalExpr N fuel st2 r)) := by
  intro N fuel st st1 st2 l r op vr lv hr hl
  refine ⟨?_, ?_, ?_, ?_⟩ <;> intro hop htru <;> simp [evalExpr, hr, hl, hop, htru]

/-- C3, witness for the amended theorem at `1 and 2`, which evaluates to the
number `2` (the right operand's value). -/
theorem c3_and_or_semantics_witness :
    evalExpr emptyNatives 6 initState
        (.binary (.literal (.number 1)) andTok (.literal (.number 2)))
      = (initState, .ok (.literal (.number 2))) := by
  have h := (c3_and_or_semantics emptyNatives 5 initState initState initState
      (.literal (.number 1)) (.literal (.number 2)) andTok
      (.literal (.number 2)) (.number 1) rfl rfl).2.1 rfl rfl
  exact h.trans rfl

/-- C7.  `Environment::assign` over a chain of environments: when the name
is bound in no map of the chain it fails with the `Undefined variable`
runtime error and leaves every map unchanged, and when the name is bound
somewhere it overwrites exactly the innermost binding. -/
theorem c7_assign_unbound_errors_bound_overwrites :
    ∀ (chain : List Frame) (name : String) (v : Value),
      ((chain.all fun f => (f.lookup name).isNone) = true →
        assignChain chain name v = (chain, some (.runtimeError ("Undefined variable " ++ name)))) ∧
      (∀ (pre : List Frame) (f : Frame) (post : List Frame),
        chain = pre ++ f :: post →
        (pre.all fun g => (g.lookup name).isNone) = true →
        (f.lookup name).isSome = true →
        assignChain chain name v = (pre ++ assocInsert f name v :: post, none)) := by
  intro chain name v
  constructor
  · intro hall
    induction chain with
    | nil => rfl
    | cons f rest ih =>
      rw [List.all_cons, Bool.and_eq_true] at hall
      have hf : (f.lookup name).isSome = false := by
        rw [Option.isNone_iff_eq_none] at *
        rw [hall.1]
        rfl
      simp only [assignChain, hf]
      rw [ih hall.2]
      rfl
  · intro pre
    induction pre generalizing chain with
    | nil =>
      intro f post hc _ hf
      subst hc
      simp only [assignChain, hf]
      rfl
    | cons g pre' ih =>
      intro f post hc hall hf
      subst hc
      rw [List.all_cons, Bool.and_eq_true] at hall
      have hg : (g.lookup name).isSome = false := by
        rw [Option.isNone_iff_eq_none] at *
        rw [hall.1]
        rfl
      simp only [assignChain, hg, List.append_eq]
      rw [ih (pre' ++ f :: post) f post rfl hall.2 hf]
      rfl

/-- C7, witness: assigning to `x` in a one-environment chain that binds only
`y` fails with `Undefined variable x` and leaves the chain unchanged;
assigning to `x` in a two-environment chain that binds `x` in the outer
environment overwrites that binding. -/
theorem c7_assign_witness :
    assignChain [[("y", Value.literal .nil)]] "x" (Value.literal (.boolean true))
        = ([[("y", Value.literal .nil)]], some (.runtimeError "Undefined variable x")) ∧
    assignChain [[("y", Value.literal .nil)], [("x", Value.literal .nil)]] "x"
        (Value.literal (.boolean true))
      = ([[("y", Value.literal .nil)], [("x", Value.literal (.boolean true))]], none) := by
  constructor
  · exact (c7_assign_unbound_errors_bound_overwrites [[("y", Value.literal .nil)]] "x"
      (Value.literal (.boolean true))).1 rfl
  · exact (c7_assign_unbound_errors_bound_overwrites
      [[("y", Value.literal .nil)], [("x", Value.literal .nil)]] "x"
      (Value.literal (.boolean true))).2
      [[("y", Value.literal .nil)]] [("x", Value.literal .nil)] [] rfl rfl rfl

/-- C10.  When the callee of a `Call` expression evaluates to a callable
whose arity differs from the number of argument expressions, `visit_call`
reports `Expected N arguments but got M.` before evaluating any argument:
the resulting state is exactly the state after the callee evaluation, so no
argument side effect occurs on the mismatch path. -/
theorem c10_arity_mismatch_precedes_arguments :
    ∀ (N : NativeTable) (fuel : Nat) (st st1 : State) (callee : ExprEnum) (paren : Token)
      (arguments : List ExprEnum) (c : Callable) (envId : Nat),
      evalExpr N fuel st callee = (st1, .ok (.callable c envId)) →
      c.arity ≠ arguments.length →
      evalExpr N (fuel + 1) st (.call callee paren arguments)
        = (st1, .err (.parseError paren
            ("Expected " ++ toString c.arity ++ " arguments but got "
              ++ toString arguments.length ++ "."))) := by
  intro N fuel st st1 callee paren arguments c envId hc hne
  simp [evalExpr, hc, hne]

/-- C10, witness: calling the two-parameter function `f` with the single
argument `1` fails with `Expected 2 arguments but got 1.` and leaves the
state untouched. -/
theorem c10_arity_mismatch_witness :
    evalExpr emptyNatives 6 twoParamState
        (.call (.variable (ident "f")) parenTok [.literal (.number 1)])
      = (twoParamState, .err (.parseError parenTok "Expected 2 arguments but got 1.")) := by
  have h := c10_arity_mismatch_precedes_arguments emptyNatives 5 twoParamState twoParamState
      (.variable (ident "f")) parenTok [.literal (.number 1)]
      (.function twoParamDecl) 0 rfl (by decide)
  exact h.trans rfl

end Lox
